import Mathlib

/-!
# c_tbhgcm: the comment of a header keyword (src/tables/c_tbhgcm.c)

A shallow embedding of the C function `c_tbhgcm` and the properties of it
that the specification states.

Memory is modelled by explicit state passing.  A `char` buffer is a
`List Char` holding its bytes, its capacity being the length of the list;
the C string a buffer holds is the run of bytes before the first NUL
(`cstr`).  A store outside a buffer is undefined behaviour in C and is
`none` here.  The CFITSIO routine `fits_read_keyword` is an external
library call and is a parameter of the embedding: every theorem holds for
every behaviour of it.
-/

namespace Tbhgcm

/-- The terminator of a C string. -/
def NUL : Char := Char.ofNat 0

/-- The C string held in a buffer: the bytes before the first NUL.  The end
of the list is read as a terminator. -/
def cstr (buf : List Char) : List Char :=
  buf.takeWhile (fun c => c != NUL)

/-- The C library `strcmp` on two buffers: zero when the two C strings are
equal, otherwise the difference of the first pair of bytes that differ. -/
def strcmp : List Char → List Char → Int
  | [], [] => 0
  | [], b :: _ => 0 - (b.toNat : Int)
  | a :: _, [] => (a.toNat : Int)
  | a :: as, b :: bs =>
    if a = b then (if a = NUL then 0 else strcmp as bs)
    else (a.toNat : Int) - (b.toNat : Int)

/-- The assignment `buf[i] = c`; `none` when `i` is outside the buffer. -/
def store (buf : List Char) (i : Nat) (c : Char) : Option (List Char) :=
  if i < buf.length then some (buf.set i c) else none

/-- Modelled from the spec: `copyString (output, input, maxch)`, a helper of
the tables library whose source is not among the files.  The spec describes
it as a bounded, terminated copy: the output receives the input string
"truncated to `maxLength` characters if it exceeds that length, and
terminated", in a buffer "of at least `maxLength + 1` characters of
capacity" with `maxLength ≥ 0`.  Outside that contract the result is
`none`.  The bytes after the terminator are left as they were. -/
def copyString (output input : List Char) (maxch : Int) : Option (List Char) :=
  if 0 ≤ maxch ∧ maxch.toNat < output.length then
    let s := (cstr input).take maxch.toNat
    some (s ++ NUL :: output.drop (s.length + 1))
  else none

/-- Modelled from the spec: `setError (status, msg)`, the error channel of
the tables library, whose source is not among the files.  The spec
describes a process-wide error state to which errors are reported; it is
kept here as the list of the reports made so far, latest last. -/
def setError (errors : List (Int × String)) (status : Int) (msg : String) :
    List (Int × String) :=
  errors ++ [(status, msg)]

/-- What one call of the external `fits_read_keyword` leaves behind: the
file (header included) behind the `fitsfile` pointer, the two string buffers
it was given, and the status variable. -/
structure KeyRead (F : Type) where
  fptr : F
  value : List Char
  cmt : List Char
  status : Int

/-- The table descriptor behind the handle `tp`.  Its declaration
(`ctables.h`) is not among the files; `fptr` is the only field `c_tbhgcm`
uses, and the type `F` of the CFITSIO file it designates is a parameter. -/
structure TableDescr (F : Type) where
  fptr : F

/-- The state `c_tbhgcm` runs in: the table behind the handle, the error
state of the tables library, and the caller's output buffer `comment`. -/
structure State (F : Type) where
  tp : TableDescr F
  errors : List (Int × String)
  comment : List Char

/-- The function `c_tbhgcm (tp, keyword, comment, maxch)`.

`fits_read_keyword fptr keyword value cmt status` is the external CFITSIO
call.  `value0` and `cmt0` are the indeterminate bytes that the local arrays
`value` and `cmt` hold after their first byte, which the function sets to
NUL before the call (their size, `SZ_FITS_STR + 1`, comes from a header that
is not among the files and plays no part).  `keyword` is the buffer the caller
passes, `maxch` the C `int`.  The closing `if (cmt)` of the source has an empty
body and is left out. -/
def c_tbhgcm {F : Type}
    (fits_read_keyword : F → List Char → List Char → List Char → Int → KeyRead F)
    (value0 cmt0 : List Char) (st : State F) (keyword : List Char) (maxch : Int) :
    Option (State F) :=
  let value := NUL :: value0
  let cmt := NUL :: cmt0
  let status : Int := 0
  let tbl_descr := st.tp
  let r := fits_read_keyword tbl_descr.fptr keyword value cmt status
  let errors :=
    if r.status ≠ 0 then setError st.errors r.status "c_tbhgcm:  error reading comment"
    else st.errors
  if strcmp keyword "HISTORY".toList = 0 ∨
      strcmp keyword "COMMENT".toList = 0 ∨
      keyword.headD NUL = ' ' then
    (store st.comment 0 NUL).map
      (fun out => { tp := { fptr := r.fptr }, errors := errors, comment := out })
  else
    (copyString st.comment r.cmt maxch).map
      (fun out => { tp := { fptr := r.fptr }, errors := errors, comment := out })

/-- The C string left in the output buffer by a call, `none` when the call
ran into undefined behaviour. -/
def outComment {F : Type} (res : Option (State F)) : Option (List Char) :=
  res.map (fun st => cstr st.comment)

/-! ## Sample header readers, for the concrete instances -/

/-- A reader that finds the keyword and returns the given value and comment
strings with status zero. -/
def readFound (value cmt : String) (f : Unit) (_keyword _value _cmt : List Char)
    (status : Int) : KeyRead Unit :=
  { fptr := f, value := value.toList ++ [NUL], cmt := cmt.toList ++ [NUL], status := status }

/-- A reader that fails with the given status and leaves both buffers as it
found them. -/
def readFailed (code : Int) (f : Unit) (_keyword value cmt : List Char)
    (_status : Int) : KeyRead Unit :=
  { fptr := f, value := value, cmt := cmt, status := code }

/-- A state with no error reported and an output buffer of the given
contents. -/
def stateWith (buf : String) : State Unit :=
  { tp := { fptr := () }, errors := [], comment := buf.toList }

/-! ## Facts about C strings -/

theorem toNat_eq_zero_iff (c : Char) : c.toNat = 0 ↔ c = NUL := by
  constructor
  · intro h
    apply Char.ext
    apply UInt32.ext
    simpa [Char.toNat, NUL] using h
  · rintro rfl
    rfl

theorem cstr_nil : cstr [] = [] := rfl

theorem cstr_cons_nul (bs : List Char) : cstr (NUL :: bs) = [] := by
  simp [cstr]

theorem cstr_cons_of_ne {b : Char} (h : b ≠ NUL) (bs : List Char) :
    cstr (b :: bs) = b :: cstr bs := by
  simp [cstr, h]

theorem nul_not_mem_cstr (buf : List Char) : NUL ∉ cstr buf := by
  intro h
  have := List.mem_takeWhile_imp h
  simp at this

theorem nul_not_mem_take_cstr (buf : List Char) (n : Nat) : NUL ∉ (cstr buf).take n :=
  fun h => nul_not_mem_cstr buf (List.mem_of_mem_take h)

theorem cstr_append_nul (s t : List Char) (h : NUL ∉ s) : cstr (s ++ NUL :: t) = s := by
  induction s with
  | nil => exact cstr_cons_nul t
  | cons c s ih =>
    have hc : c ≠ NUL := fun e => h (by simp [e])
    have hs : NUL ∉ s := fun e => h (List.mem_cons_of_mem c e)
    rw [List.cons_append, cstr_cons_of_ne hc, ih hs]

theorem strcmp_eq_zero_iff (a b : List Char) : strcmp a b = 0 ↔ cstr a = cstr b := by
  induction a generalizing b with
  | nil =>
    cases b with
    | nil => simp [strcmp]
    | cons y ys =>
      by_cases hy : y = NUL
      · subst hy
        simp [strcmp, cstr_cons_nul, cstr_nil, (toNat_eq_zero_iff NUL).2 rfl]
      · have : y.toNat ≠ 0 := fun e => hy ((toNat_eq_zero_iff y).1 e)
        simp [strcmp, cstr_cons_of_ne hy, cstr_nil]
        omega
  | cons x xs ih =>
    cases b with
    | nil =>
      by_cases hx : x = NUL
      · subst hx
        simp [strcmp, cstr_cons_nul, cstr_nil, (toNat_eq_zero_iff NUL).2 rfl]
      · have : x.toNat ≠ 0 := fun e => hx ((toNat_eq_zero_iff x).1 e)
        simp [strcmp, cstr_cons_of_ne hx, cstr_nil]
        omega
    | cons y ys =>
      by_cases hxy : x = y
      · subst hxy
        by_cases hx : x = NUL
        · subst hx
          simp [strcmp, cstr_cons_nul]
        · simp [strcmp, hx, cstr_cons_of_ne hx, ih]
      · have hne : (x.toNat : Int) - (y.toNat : Int) ≠ 0 := by
          intro e
          apply hxy
          apply Char.ext
          apply UInt32.ext
          have : x.toNat = y.toNat := by omega
          simpa [Char.toNat] using this
        have hcmp : strcmp (x :: xs) (y :: ys) ≠ 0 := by
          simpa [strcmp, hxy] using hne
        have hstr : cstr (x :: xs) ≠ cstr (y :: ys) := by
          by_cases hx : x = NUL
          · have hy : y ≠ NUL := fun e => hxy (hx.trans e.symm)
            rw [hx, cstr_cons_nul, cstr_cons_of_ne hy]
            simp
          · by_cases hy : y = NUL
            · rw [hy, cstr_cons_nul, cstr_cons_of_ne hx]
              simp
            · rw [cstr_cons_of_ne hx, cstr_cons_of_ne hy]
              intro e
              exact hxy (List.cons.inj e).1
        exact ⟨fun e => absurd e hcmp, fun e => absurd e hstr⟩

/-! ## The two stores into the output buffer -/

theorem store_zero_nul (buf : List Char) (h : 0 < buf.length) :
    store buf 0 NUL = some (NUL :: buf.tail) := by
  cases buf with
  | nil => simp at h
  | cons b bs => simp [store]

theorem copyString_eq (output input : List Char) (maxch : Int)
    (h0 : 0 ≤ maxch) (hcap : maxch < (output.length : Int)) :
    copyString output input maxch =
      some ((cstr input).take maxch.toNat ++
        NUL :: output.drop (((cstr input).take maxch.toNat).length + 1)) := by
  have h : 0 ≤ maxch ∧ maxch.toNat < output.length := ⟨h0, by omega⟩
  simp only [copyString, h, and_self, if_true]

theorem copyString_cstr (output input : List Char) (maxch : Int)
    (h0 : 0 ≤ maxch) (hcap : maxch < (output.length : Int)) :
    (copyString output input maxch).map cstr = some ((cstr input).take maxch.toNat) := by
  rw [copyString_eq output input maxch h0 hcap, Option.map_some',
    cstr_append_nul _ _ (nul_not_mem_take_cstr input maxch.toNat)]

/-! ## The two branches of c_tbhgcm -/

theorem headD_eq_space_iff (keyword : List Char) :
    keyword.headD NUL = ' ' ↔ keyword.head? = some ' ' := by
  cases keyword with
  | nil => simp [NUL]
  | cons k ks => simp

theorem c_tbhgcm_special {F : Type}
    (fits_read_keyword : F → List Char → List Char → List Char → Int → KeyRead F)
    (value0 cmt0 : List Char) (st : State F) (keyword : List Char) (maxch : Int)
    (h : cstr keyword = "HISTORY".toList ∨ cstr keyword = "COMMENT".toList ∨
      keyword.head? = some ' ') :
    outComment (c_tbhgcm fits_read_keyword value0 cmt0 st keyword maxch) =
      (store st.comment 0 NUL).map cstr := by
  have hc : strcmp keyword "HISTORY".toList = 0 ∨
      strcmp keyword "COMMENT".toList = 0 ∨ keyword.headD NUL = ' ' := by
    rw [strcmp_eq_zero_iff, strcmp_eq_zero_iff, headD_eq_space_iff]
    exact h
  simp only [c_tbhgcm, outComment, if_pos hc, Option.map_map]
  rfl

theorem c_tbhgcm_normal {F : Type}
    (fits_read_keyword : F → List Char → List Char → List Char → Int → KeyRead F)
    (value0 cmt0 : List Char) (st : State F) (keyword : List Char) (maxch : Int)
    (h1 : cstr keyword ≠ "HISTORY".toList) (h2 : cstr keyword ≠ "COMMENT".toList)
    (h3 : keyword.head? ≠ some ' ') :
    outComment (c_tbhgcm fits_read_keyword value0 cmt0 st keyword maxch) =
      (copyString st.comment
        (fits_read_keyword st.tp.fptr keyword (NUL :: value0) (NUL :: cmt0) 0).cmt
        maxch).map cstr := by
  have hc : ¬ (strcmp keyword "HISTORY".toList = 0 ∨
      strcmp keyword "COMMENT".toList = 0 ∨ keyword.headD NUL = ' ') := by
    rw [strcmp_eq_zero_iff, strcmp_eq_zero_iff, headD_eq_space_iff]
    rintro (h | h | h)
    · exact h1 h
    · exact h2 h
    · exact h3 h
  simp only [c_tbhgcm, outComment, if_neg hc, Option.map_map]
  rfl

/-- The state a call leaves when the keyword is special: the first byte of
the output buffer is set to NUL. -/
theorem c_tbhgcm_state_special {F : Type}
    (fits_read_keyword : F → List Char → List Char → List Char → Int → KeyRead F)
    (value0 cmt0 : List Char) (st : State F) (keyword : List Char) (maxch : Int)
    (h : cstr keyword = "HISTORY".toList ∨ cstr keyword = "COMMENT".toList ∨
      keyword.head? = some ' ')
    (hcap : 0 < st.comment.length) :
    c_tbhgcm fits_read_keyword value0 cmt0 st keyword maxch =
      some
        { tp := { fptr := (fits_read_keyword st.tp.fptr keyword (NUL :: value0)
            (NUL :: cmt0) 0).fptr }
          errors :=
            if (fits_read_keyword st.tp.fptr keyword (NUL :: value0)
                (NUL :: cmt0) 0).status ≠ 0 then
              setError st.errors
                (fits_read_keyword st.tp.fptr keyword (NUL :: value0)
                  (NUL :: cmt0) 0).status "c_tbhgcm:  error reading comment"
            else st.errors
          comment := NUL :: st.comment.tail } := by
  have hc : strcmp keyword "HISTORY".toList = 0 ∨
      strcmp keyword "COMMENT".toList = 0 ∨ keyword.headD NUL = ' ' := by
    rw [strcmp_eq_zero_iff, strcmp_eq_zero_iff, headD_eq_space_iff]
    exact h
  simp only [c_tbhgcm, if_pos hc, store_zero_nul st.comment hcap, Option.map_some']

/-- The state a call leaves when the keyword is normal: the comment string
read from the header is copied, bounded by maxch. -/
theorem c_tbhgcm_state_normal {F : Type}
    (fits_read_keyword : F → List Char → List Char → List Char → Int → KeyRead F)
    (value0 cmt0 : List Char) (st : State F) (keyword : List Char) (maxch : Int)
    (h : ¬ (cstr keyword = "HISTORY".toList ∨ cstr keyword = "COMMENT".toList ∨
      keyword.head? = some ' '))
    (h0 : 0 ≤ maxch) (hcap : maxch < (st.comment.length : Int)) :
    c_tbhgcm fits_read_keyword value0 cmt0 st keyword maxch =
      some
        { tp := { fptr := (fits_read_keyword st.tp.fptr keyword (NUL :: value0)
            (NUL :: cmt0) 0).fptr }
          errors :=
            if (fits_read_keyword st.tp.fptr keyword (NUL :: value0)
                (NUL :: cmt0) 0).status ≠ 0 then
              setError st.errors
                (fits_read_keyword st.tp.fptr keyword (NUL :: value0)
                  (NUL :: cmt0) 0).status "c_tbhgcm:  error reading comment"
            else st.errors
          comment :=
            (cstr (fits_read_keyword st.tp.fptr keyword (NUL :: value0)
                (NUL :: cmt0) 0).cmt).take maxch.toNat ++
              NUL :: st.comment.drop
                (((cstr (fits_read_keyword st.tp.fptr keyword (NUL :: value0)
                  (NUL :: cmt0) 0).cmt).take maxch.toNat).length + 1) } := by
  have hc : ¬ (strcmp keyword "HISTORY".toList = 0 ∨
      strcmp keyword "COMMENT".toList = 0 ∨ keyword.headD NUL = ' ') := by
    rw [strcmp_eq_zero_iff, strcmp_eq_zero_iff, headD_eq_space_iff]
    exact h
  simp only [c_tbhgcm, if_neg hc, copyString_eq st.comment _ maxch h0 hcap,
    Option.map_some']

/-- Under the contract of the call (0 ≤ maxch, a buffer of more than maxch
bytes) the call is defined, leaves the file as the header read left it, reports
the status of the read when it is not zero, and leaves in the output buffer
a terminated string of at most maxch characters. -/
theorem c_tbhgcm_defined {F : Type}
    (fits_read_keyword : F → List Char → List Char → List Char → Int → KeyRead F)
    (value0 cmt0 : List Char) (st : State F) (keyword : List Char) (maxch : Int)
    (h0 : 0 ≤ maxch) (hcap : maxch < (st.comment.length : Int)) :
    ∃ out : List Char,
      c_tbhgcm fits_read_keyword value0 cmt0 st keyword maxch =
        some
          { tp := { fptr := (fits_read_keyword st.tp.fptr keyword (NUL :: value0)
              (NUL :: cmt0) 0).fptr }
            errors :=
              if (fits_read_keyword st.tp.fptr keyword (NUL :: value0)
                  (NUL :: cmt0) 0).status ≠ 0 then
                setError st.errors
                  (fits_read_keyword st.tp.fptr keyword (NUL :: value0)
                    (NUL :: cmt0) 0).status "c_tbhgcm:  error reading comment"
              else st.errors
            comment := out } ∧
      NUL ∈ out ∧ ((cstr out).length : Int) ≤ maxch ∧ out.length = st.comment.length := by
  have hpos : 0 < st.comment.length := by omega
  by_cases h : cstr keyword = "HISTORY".toList ∨ cstr keyword = "COMMENT".toList ∨
      keyword.head? = some ' '
  · refine ⟨_, c_tbhgcm_state_special fits_read_keyword value0 cmt0 st keyword maxch h hpos,
      List.mem_cons_self _ _, ?_, ?_⟩
    · rw [cstr_cons_nul]
      simpa using h0
    · cases hb : st.comment with
      | nil => rw [hb] at hpos; simp at hpos
      | cons b bs => simp
  · refine ⟨_, c_tbhgcm_state_normal fits_read_keyword value0 cmt0 st keyword maxch h h0 hcap,
      ?_, ?_, ?_⟩
    · simp
    · rw [cstr_append_nul _ _ (nul_not_mem_take_cstr _ _)]
      have := List.length_take_le maxch.toNat
        (cstr (fits_read_keyword st.tp.fptr keyword (NUL :: value0) (NUL :: cmt0) 0).cmt)
      omega
    · have := List.length_take_le maxch.toNat
        (cstr (fits_read_keyword st.tp.fptr keyword (NUL :: value0) (NUL :: cmt0) 0).cmt)
      simp only [List.length_append, List.length_cons, List.length_drop]
      omega

/-! ## The claims -/

/-- C1: when the keyword is exactly "HISTORY" or exactly "COMMENT", the string
left in the output buffer is empty, whatever the header read returned, for
every maxch; the buffer has room for the terminator. -/
theorem history_comment_keyword_empty {F : Type}
    (fits_read_keyword : F → List Char → List Char → List Char → Int → KeyRead F)
    (value0 cmt0 : List Char) (st : State F) (keyword : List Char) (maxch : Int)
    (hkey : cstr keyword = "HISTORY".toList ∨ cstr keyword = "COMMENT".toList)
    (hcap : 0 < st.comment.length) :
    outComment (c_tbhgcm fits_read_keyword value0 cmt0 st keyword maxch) = some [] := by
  have hs : cstr keyword = "HISTORY".toList ∨ cstr keyword = "COMMENT".toList ∨
      keyword.head? = some ' ' := by
    rcases hkey with h | h
    · exact Or.inl h
    · exact Or.inr (Or.inl h)
  rw [c_tbhgcm_special fits_read_keyword value0 cmt0 st keyword maxch hs,
    store_zero_nul st.comment hcap, Option.map_some', cstr_cons_nul]

/-- C1, the scenario of the spec: keyword "COMMENT" with raw comment
"not used" gives the empty string. -/
theorem history_comment_keyword_empty_witness :
    outComment (c_tbhgcm (readFound "" "not used") [] [] (stateWith "????????")
      "COMMENT".toList 7) = some [] :=
  history_comment_keyword_empty (readFound "" "not used") [] [] (stateWith "????????")
    "COMMENT".toList 7 (Or.inr (by decide)) (by decide)

/-- C2: when the first character of the keyword is a space (the keyword " ",
the keyword " HISTORY", ...), the string left in the output buffer is
empty, whatever the header read returned, for every maxch; the buffer has
room for the terminator. -/
theorem blank_keyword_empty {F : Type}
    (fits_read_keyword : F → List Char → List Char → List Char → Int → KeyRead F)
    (value0 cmt0 : List Char) (st : State F) (keyword : List Char) (maxch : Int)
    (hkey : keyword.head? = some ' ')
    (hcap : 0 < st.comment.length) :
    outComment (c_tbhgcm fits_read_keyword value0 cmt0 st keyword maxch) = some [] := by
  rw [c_tbhgcm_special fits_read_keyword value0 cmt0 st keyword maxch
      (Or.inr (Or.inr hkey)),
    store_zero_nul st.comment hcap, Option.map_some', cstr_cons_nul]

/-- C2, the scenario of the spec: keyword " " with raw comment "blank note"
gives the empty string, and so does keyword " HISTORY". -/
theorem blank_keyword_empty_witness :
    outComment (c_tbhgcm (readFound "" "blank note") [] [] (stateWith "????????")
        " ".toList 7) = some [] ∧
      outComment (c_tbhgcm (readFound "" "blank note") [] [] (stateWith "????????")
        " HISTORY".toList 7) = some [] :=
  ⟨blank_keyword_empty (readFound "" "blank note") [] [] (stateWith "????????")
      " ".toList 7 (by decide) (by decide),
    blank_keyword_empty (readFound "" "blank note") [] [] (stateWith "????????")
      " HISTORY".toList 7 (by decide) (by decide)⟩

/-- C3: for a keyword that is not "HISTORY", not "COMMENT" and does not begin
with a space, with 0 ≤ maxch and an output buffer of more than maxch bytes,
the string left in the output buffer is the first min(maxch, length) characters
of the comment string the header read returned; it is that string unchanged
when it has at most maxch characters. -/
theorem normal_keyword_truncated_copy {F : Type}
    (fits_read_keyword : F → List Char → List Char → List Char → Int → KeyRead F)
    (value0 cmt0 : List Char) (st : State F) (keyword : List Char) (maxch : Int)
    (h1 : cstr keyword ≠ "HISTORY".toList) (h2 : cstr keyword ≠ "COMMENT".toList)
    (h3 : keyword.head? ≠ some ' ')
    (h0 : 0 ≤ maxch) (hcap : maxch < (st.comment.length : Int)) :
    outComment (c_tbhgcm fits_read_keyword value0 cmt0 st keyword maxch) =
        some ((cstr (fits_read_keyword st.tp.fptr keyword (NUL :: value0)
            (NUL :: cmt0) 0).cmt).take
          (min maxch.toNat (cstr (fits_read_keyword st.tp.fptr keyword (NUL :: value0)
            (NUL :: cmt0) 0).cmt).length)) ∧
      (((cstr (fits_read_keyword st.tp.fptr keyword (NUL :: value0)
            (NUL :: cmt0) 0).cmt).length : Int) ≤ maxch →
        outComment (c_tbhgcm fits_read_keyword value0 cmt0 st keyword maxch) =
          some (cstr (fits_read_keyword st.tp.fptr keyword (NUL :: value0)
            (NUL :: cmt0) 0).cmt)) := by
  rw [c_tbhgcm_normal fits_read_keyword value0 cmt0 st keyword maxch h1 h2 h3,
    copyString_cstr _ _ maxch h0 hcap]
  constructor
  · congr 1
    rw [List.take_eq_take]
    simp
  · intro hlen
    congr 1
    apply List.take_of_length_le
    omega

/-- C3, the scenario of the spec: keyword "DATE-OBS" with raw comment
"observation date" and maxch 7 gives "observa"; and the empty keyword,
"history" and "HISTORY " are normal keywords, whose comment "note" is copied
unchanged. -/
theorem normal_keyword_truncated_copy_witness :
    outComment (c_tbhgcm (readFound "2001-01-01" "observation date") [] []
        (stateWith "????????") "DATE-OBS".toList 7) = some "observa".toList ∧
      outComment (c_tbhgcm (readFound "" "note") [] [] (stateWith "????????")
        "".toList 7) = some "note".toList ∧
      outComment (c_tbhgcm (readFound "" "note") [] [] (stateWith "????????")
        "history".toList 7) = some "note".toList ∧
      outComment (c_tbhgcm (readFound "" "note") [] [] (stateWith "????????")
        "HISTORY ".toList 7) = some "note".toList :=
  ⟨(normal_keyword_truncated_copy (readFound "2001-01-01" "observation date") [] []
      (stateWith "????????") "DATE-OBS".toList 7 (by decide) (by decide) (by decide)
      (by decide) (by decide)).1.trans (by decide),
    (normal_keyword_truncated_copy (readFound "" "note") [] []
      (stateWith "????????") "".toList 7 (by decide) (by decide) (by decide)
      (by decide) (by decide)).2 (by decide),
    (normal_keyword_truncated_copy (readFound "" "note") [] []
      (stateWith "????????") "history".toList 7 (by decide) (by decide) (by decide)
      (by decide) (by decide)).2 (by decide),
    (normal_keyword_truncated_copy (readFound "" "note") [] []
      (stateWith "????????") "HISTORY ".toList 7 (by decide) (by decide) (by decide)
      (by decide) (by decide)).2 (by decide)⟩

/-- C4: for every keyword, every result of the header read and every
0 ≤ maxch, with an output buffer of more than maxch bytes, the call returns
and the output buffer then holds a terminator and a string of at most maxch
characters. -/
theorem output_terminated_and_bounded {F : Type}
    (fits_read_keyword : F → List Char → List Char → List Char → Int → KeyRead F)
    (value0 cmt0 : List Char) (st : State F) (keyword : List Char) (maxch : Int)
    (h0 : 0 ≤ maxch) (hcap : maxch < (st.comment.length : Int)) :
    ∃ st1 : State F,
      c_tbhgcm fits_read_keyword value0 cmt0 st keyword maxch = some st1 ∧
      NUL ∈ st1.comment ∧ ((cstr st1.comment).length : Int) ≤ maxch := by
  obtain ⟨out, hout, hnul, hlen, _⟩ :=
    c_tbhgcm_defined fits_read_keyword value0 cmt0 st keyword maxch h0 hcap
  exact ⟨_, hout, hnul, hlen⟩

/-- C4 at a raw comment of 16 characters and maxch 3, for a normal
keyword. -/
theorem output_terminated_and_bounded_witness :
    ∃ st1 : State Unit,
      c_tbhgcm (readFound "2001-01-01" "observation date") [] [] (stateWith "????????")
        "DATE-OBS".toList 3 = some st1 ∧
      NUL ∈ st1.comment ∧ ((cstr st1.comment).length : Int) ≤ 3 :=
  output_terminated_and_bounded (readFound "2001-01-01" "observation date") [] []
    (stateWith "????????") "DATE-OBS".toList 3 (by decide) (by decide)

/-- C5: an error is reported if and only if the status of the header read is
not zero.  With a non-zero status exactly one report, carrying that status,
is added to the error state; with status zero the error state is left as it
was; for every keyword. -/
theorem error_reported_iff_status_nonzero {F : Type}
    (fits_read_keyword : F → List Char → List Char → List Char → Int → KeyRead F)
    (value0 cmt0 : List Char) (st : State F) (keyword : List Char) (maxch : Int)
    (h0 : 0 ≤ maxch) (hcap : maxch < (st.comment.length : Int)) :
    ∃ st1 : State F,
      c_tbhgcm fits_read_keyword value0 cmt0 st keyword maxch = some st1 ∧
      ((fits_read_keyword st.tp.fptr keyword (NUL :: value0) (NUL :: cmt0) 0).status ≠ 0 →
        st1.errors = st.errors ++
          [((fits_read_keyword st.tp.fptr keyword (NUL :: value0) (NUL :: cmt0) 0).status,
            "c_tbhgcm:  error reading comment")]) ∧
      ((fits_read_keyword st.tp.fptr keyword (NUL :: value0) (NUL :: cmt0) 0).status = 0 →
        st1.errors = st.errors) ∧
      (st1.errors ≠ st.errors ↔
        (fits_read_keyword st.tp.fptr keyword (NUL :: value0) (NUL :: cmt0) 0).status ≠ 0) := by
  obtain ⟨out, hout, _⟩ :=
    c_tbhgcm_defined fits_read_keyword value0 cmt0 st keyword maxch h0 hcap
  refine ⟨_, hout, ?_, ?_, ?_⟩
  · intro hs
    simp [hs, setError]
  · intro hs
    simp [hs]
  · by_cases hs :
      (fits_read_keyword st.tp.fptr keyword (NUL :: value0) (NUL :: cmt0) 0).status = 0
    · simp [hs]
    · simp [hs, setError]

/-- C5 at a failed read of the special keyword "HISTORY" (status 202) and at a
successful read of "EXPTIME". -/
theorem error_reported_iff_status_nonzero_witness :
    (∃ st1 : State Unit,
      c_tbhgcm (readFailed 202) [] [] (stateWith "????????") "HISTORY".toList 7 = some st1 ∧
      st1.errors = [(202, "c_tbhgcm:  error reading comment")]) ∧
    (∃ st1 : State Unit,
      c_tbhgcm (readFound "1.5" "exposure") [] [] (stateWith "????????")
        "EXPTIME".toList 7 = some st1 ∧
      st1.errors = []) := by
  constructor
  · obtain ⟨st1, h, hne, _, _⟩ := error_reported_iff_status_nonzero (readFailed 202) [] []
      (stateWith "????????") "HISTORY".toList 7 (by decide) (by decide)
    exact ⟨st1, h, hne (by decide)⟩
  · obtain ⟨st1, h, _, heq, _⟩ := error_reported_iff_status_nonzero
      (readFound "1.5" "exposure") [] [] (stateWith "????????") "EXPTIME".toList 7
      (by decide) (by decide)
    exact ⟨st1, h, heq (by decide)⟩

/-- C6: a failed header read does not cut the call short.  Two header reads
that leave the same comment string, whatever their statuses (in particular one
non-zero and the other zero), make the call leave the same output buffer. -/
theorem failed_read_does_not_short_circuit {F : Type}
    (read1 read2 : F → List Char → List Char → List Char → Int → KeyRead F)
    (value1 cmt1 value2 cmt2 : List Char) (st : State F) (keyword : List Char)
    (maxch : Int)
    (h0 : 0 ≤ maxch) (hcap : maxch < (st.comment.length : Int))
    (hcmt : cstr (read1 st.tp.fptr keyword (NUL :: value1) (NUL :: cmt1) 0).cmt =
      cstr (read2 st.tp.fptr keyword (NUL :: value2) (NUL :: cmt2) 0).cmt) :
    ∃ out : List Char,
      (c_tbhgcm read1 value1 cmt1 st keyword maxch).map State.comment = some out ∧
      (c_tbhgcm read2 value2 cmt2 st keyword maxch).map State.comment = some out := by
  have hpos : 0 < st.comment.length := by omega
  by_cases h : cstr keyword = "HISTORY".toList ∨ cstr keyword = "COMMENT".toList ∨
      keyword.head? = some ' '
  · refine ⟨NUL :: st.comment.tail, ?_, ?_⟩
    · rw [c_tbhgcm_state_special read1 value1 cmt1 st keyword maxch h hpos]
      rfl
    · rw [c_tbhgcm_state_special read2 value2 cmt2 st keyword maxch h hpos]
      rfl
  · rw [c_tbhgcm_state_normal read1 value1 cmt1 st keyword maxch h h0 hcap,
      c_tbhgcm_state_normal read2 value2 cmt2 st keyword maxch h h0 hcap, hcmt]
    exact ⟨_, rfl, rfl⟩

/-- C6, the scenario of the spec: for keyword "EXPTIME", a read that fails with
status 202 after writing the comment "exposure" and a read that succeeds with
that comment leave the same output. -/
theorem failed_read_does_not_short_circuit_witness :
    ∃ out : List Char,
      (c_tbhgcm (fun f _ v _ _ => ⟨f, v, "exposure".toList ++ [NUL], 202⟩) [] []
        (stateWith "????????") "EXPTIME".toList 7).map State.comment = some out ∧
      (c_tbhgcm (readFound "1.5" "exposure") [] []
        (stateWith "????????") "EXPTIME".toList 7).map State.comment = some out :=
  failed_read_does_not_short_circuit (fun f _ v _ _ => ⟨f, v, "exposure".toList ++ [NUL], 202⟩)
    (readFound "1.5" "exposure") [] [] [] [] (stateWith "????????") "EXPTIME".toList 7
    (by decide) (by decide) (by decide)

/-- C7, as stated, fails: a read of "EXPTIME" that fails with status 202
leaves an error state that differs from the one before the call. -/
theorem frame_error_state_counterexample :
    ∃ st1 : State Unit,
      c_tbhgcm (readFailed 202) [] [] (stateWith "????????") "EXPTIME".toList 7 = some st1 ∧
      st1.errors = [(202, "c_tbhgcm:  error reading comment")] ∧
      st1.errors ≠ (stateWith "????????").errors := by
  obtain ⟨out, hout, _⟩ := c_tbhgcm_defined (readFailed 202) [] []
    (stateWith "????????") "EXPTIME".toList 7 (by decide) (by decide)
  refine ⟨_, hout, ?_, ?_⟩
  · simp [readFailed, setError, stateWith]
  · simp [readFailed, setError, stateWith]

/-- C7, amended: when the header read leaves the file behind the handle as it
was, the call leaves the table descriptor (handle and header) as it was, keeps
the capacity of the output buffer, and leaves the error state as it was when
the status of the read is zero; when the status is not zero the error state
gains the one report of that status and nothing else changes. -/
theorem frame_apart_from_reported_error {F : Type}
    (fits_read_keyword : F → List Char → List Char → List Char → Int → KeyRead F)
    (value0 cmt0 : List Char) (st : State F) (keyword : List Char) (maxch : Int)
    (h0 : 0 ≤ maxch) (hcap : maxch < (st.comment.length : Int))
    (hread : (fits_read_keyword st.tp.fptr keyword (NUL :: value0) (NUL :: cmt0) 0).fptr =
      st.tp.fptr) :
    ∃ st1 : State F,
      c_tbhgcm fits_read_keyword value0 cmt0 st keyword maxch = some st1 ∧
      st1.tp = st.tp ∧
      st1.comment.length = st.comment.length ∧
      ((fits_read_keyword st.tp.fptr keyword (NUL :: value0) (NUL :: cmt0) 0).status = 0 →
        st1.errors = st.errors) ∧
      ((fits_read_keyword st.tp.fptr keyword (NUL :: value0) (NUL :: cmt0) 0).status ≠ 0 →
        st1.errors = st.errors ++
          [((fits_read_keyword st.tp.fptr keyword (NUL :: value0) (NUL :: cmt0) 0).status,
            "c_tbhgcm:  error reading comment")]) := by
  obtain ⟨out, hout, _, _, hlen⟩ :=
    c_tbhgcm_defined fits_read_keyword value0 cmt0 st keyword maxch h0 hcap
  refine ⟨_, hout, ?_, hlen, ?_, ?_⟩
  · show TableDescr.mk _ = st.tp
    rw [hread]
  · intro hs
    simp [hs]
  · intro hs
    simp [hs, setError]

/-- C7, amended, at a successful read of "EXPTIME": descriptor and error state
are as before the call. -/
theorem frame_apart_from_reported_error_witness :
    ∃ st1 : State Unit,
      c_tbhgcm (readFound "1.5" "exposure") [] [] (stateWith "????????")
        "EXPTIME".toList 7 = some st1 ∧
      st1.tp = (stateWith "????????").tp ∧ st1.errors = (stateWith "????????").errors := by
  obtain ⟨st1, h, htp, _, herr, _⟩ := frame_apart_from_reported_error
    (readFound "1.5" "exposure") [] [] (stateWith "????????") "EXPTIME".toList 7
    (by decide) (by decide) rfl
  exact ⟨st1, h, htp, herr (by decide)⟩

/-- C8: with maxch = 0 the string left in the output buffer is empty for every
keyword, normal ones included, whatever the header read returned; the buffer
has room for the terminator. -/
theorem zero_maxch_empty {F : Type}
    (fits_read_keyword : F → List Char → List Char → List Char → Int → KeyRead F)
    (value0 cmt0 : List Char) (st : State F) (keyword : List Char)
    (hcap : 0 < st.comment.length) :
    outComment (c_tbhgcm fits_read_keyword value0 cmt0 st keyword 0) = some [] := by
  obtain ⟨out, hout, _, hlen, _⟩ :=
    c_tbhgcm_defined fits_read_keyword value0 cmt0 st keyword 0 (le_refl 0) (by omega)
  rw [hout]
  show some (cstr out) = some []
  congr 1
  apply List.eq_nil_of_length_eq_zero
  omega

/-- C8 at the normal keyword "DATE-OBS" with raw comment
"observation date". -/
theorem zero_maxch_empty_witness :
    outComment (c_tbhgcm (readFound "2001-01-01" "observation date") [] []
      (stateWith "????????") "DATE-OBS".toList 0) = some [] :=
  zero_maxch_empty (readFound "2001-01-01" "observation date") [] []
    (stateWith "????????") "DATE-OBS".toList (by decide)

/-- C9: two calls in a row with the same handle, keyword and maxch, the header
read returning the same comment string both times: the second call leaves
the same string in the output buffer as the first, and would do so whatever
bytes the buffer held when it started. -/
theorem repeated_call_same_output {F : Type}
    (fits_read_keyword : F → List Char → List Char → List Char → Int → KeyRead F)
    (value1 cmt1 value2 cmt2 : List Char) (st : State F) (keyword : List Char)
    (maxch : Int)
    (h0 : 0 ≤ maxch) (hcap : maxch < (st.comment.length : Int))
    (hsame :
      cstr (fits_read_keyword
          (fits_read_keyword st.tp.fptr keyword (NUL :: value1) (NUL :: cmt1) 0).fptr
          keyword (NUL :: value2) (NUL :: cmt2) 0).cmt =
        cstr (fits_read_keyword st.tp.fptr keyword (NUL :: value1) (NUL :: cmt1) 0).cmt) :
    ∃ st1 : State F,
      c_tbhgcm fits_read_keyword value1 cmt1 st keyword maxch = some st1 ∧
      outComment (c_tbhgcm fits_read_keyword value2 cmt2 st1 keyword maxch) =
        some (cstr st1.comment) ∧
      ∀ buf : List Char, buf.length = st.comment.length →
        outComment (c_tbhgcm fits_read_keyword value2 cmt2
          { st1 with comment := buf } keyword maxch) = some (cstr st1.comment) := by
  have hpos : 0 < st.comment.length := by omega
  have key : ∀ (st1 : State F),
      c_tbhgcm fits_read_keyword value1 cmt1 st keyword maxch = some st1 →
      ∀ buf : List Char, buf.length = st.comment.length →
        outComment (c_tbhgcm fits_read_keyword value2 cmt2
          { st1 with comment := buf } keyword maxch) = some (cstr st1.comment) := by
    intro st1 hst1 buf hbuf
    by_cases h : cstr keyword = "HISTORY".toList ∨ cstr keyword = "COMMENT".toList ∨
        keyword.head? = some ' '
    · rw [c_tbhgcm_state_special fits_read_keyword value1 cmt1 st keyword maxch h hpos] at hst1
      have hc : st1.comment = NUL :: st.comment.tail := by
        rw [← Option.some.inj hst1]
      rw [c_tbhgcm_special fits_read_keyword value2 cmt2 _ keyword maxch h,
        store_zero_nul buf (by omega), Option.map_some', cstr_cons_nul, hc, cstr_cons_nul]
    · rw [c_tbhgcm_state_normal fits_read_keyword value1 cmt1 st keyword maxch h h0 hcap]
        at hst1
      have hh : cstr keyword ≠ "HISTORY".toList ∧ cstr keyword ≠ "COMMENT".toList ∧
          keyword.head? ≠ some ' ' := by
        refine ⟨fun e => h (Or.inl e), fun e => h (Or.inr (Or.inl e)),
          fun e => h (Or.inr (Or.inr e))⟩
      rw [c_tbhgcm_normal fits_read_keyword value2 cmt2 _ keyword maxch hh.1 hh.2.1 hh.2.2,
        copyString_cstr _ _ maxch h0 (by show maxch < (buf.length : Int); omega)]
      rw [← Option.some.inj hst1]
      show some (List.take maxch.toNat (cstr (fits_read_keyword
          (fits_read_keyword st.tp.fptr keyword (NUL :: value1) (NUL :: cmt1) 0).fptr
          keyword (NUL :: value2) (NUL :: cmt2) 0).cmt)) = _
      rw [hsame, cstr_append_nul _ _ (nul_not_mem_take_cstr _ _)]
  obtain ⟨out, hout, _, _, hlen⟩ :=
    c_tbhgcm_defined fits_read_keyword value1 cmt1 st keyword maxch h0 hcap
  refine ⟨_, hout, ?_, key _ hout⟩
  exact key _ hout out hlen

/-- C9 at keyword "DATE-OBS", raw comment "observation date", maxch 7: the
second call gives "observa" again, also from a buffer of other contents. -/
theorem repeated_call_same_output_witness :
    ∃ st1 : State Unit,
      c_tbhgcm (readFound "2001-01-01" "observation date") [] []
        (stateWith "????????") "DATE-OBS".toList 7 = some st1 ∧
      outComment (c_tbhgcm (readFound "2001-01-01" "observation date") [] []
        st1 "DATE-OBS".toList 7) = some (cstr st1.comment) ∧
      outComment (c_tbhgcm (readFound "2001-01-01" "observation date") [] []
        { st1 with comment := "zzzzzzzz".toList } "DATE-OBS".toList 7) =
          some (cstr st1.comment) := by
  obtain ⟨st1, h, hsec, hany⟩ := repeated_call_same_output
    (readFound "2001-01-01" "observation date") [] [] [] []
    (stateWith "????????") "DATE-OBS".toList 7 (by decide) (by decide) rfl
  exact ⟨st1, h, hsec, hany "zzzzzzzz".toList (by decide)⟩

/-- C10: when the header read leaves the local comment buffer as it found it
(as a failed read does), a normal keyword gets the empty string, for every
0 ≤ maxch and whatever the indeterminate bytes of the local buffers and the
value field are: the first byte of the buffer was set to NUL before the
read. -/
theorem unwritten_comment_gives_empty {F : Type}
    (fits_read_keyword : F → List Char → List Char → List Char → Int → KeyRead F)
    (value0 cmt0 : List Char) (st : State F) (keyword : List Char) (maxch : Int)
    (h1 : cstr keyword ≠ "HISTORY".toList) (h2 : cstr keyword ≠ "COMMENT".toList)
    (h3 : keyword.head? ≠ some ' ')
    (h0 : 0 ≤ maxch) (hcap : maxch < (st.comment.length : Int))
    (hunwritten :
      (fits_read_keyword st.tp.fptr keyword (NUL :: value0) (NUL :: cmt0) 0).cmt =
        NUL :: cmt0) :
    outComment (c_tbhgcm fits_read_keyword value0 cmt0 st keyword maxch) = some [] := by
  rw [c_tbhgcm_normal fits_read_keyword value0 cmt0 st keyword maxch h1 h2 h3,
    copyString_cstr _ _ maxch h0 hcap, hunwritten, cstr_cons_nul, List.take_nil]

/-- C10 at a read of "EXPTIME" that fails with status 202 and writes nothing,
the local buffers holding the bytes "junk" and "stale" after their first. -/
theorem unwritten_comment_gives_empty_witness :
    outComment (c_tbhgcm (readFailed 202) "junk".toList "stale".toList
      (stateWith "????????") "EXPTIME".toList 7) = some [] :=
  unwritten_comment_gives_empty (readFailed 202) "junk".toList "stale".toList
    (stateWith "????????") "EXPTIME".toList 7 (by decide) (by decide) (by decide)
    (by decide) (by decide) rfl

end Tbhgcm
